import Mathlib

/-! Shallow embedding of the Acala CDP Treasury module
(src/modules/cdp-treasury/src/lib.rs) together with proofs about its
lot-splitting algorithm, offset engine, swap validation and pool
accounting.

Source-to-model conventions:
* The source types `Balance` (`u128`), `CurrencyId` and `T::AccountId`
  are all modelled as `Nat`; for balances the explicit bound
  `balMax = 2 ^ 128 - 1` is applied exactly where the source uses
  `checked_add` / `checked_sub` / `saturating_add` / `saturating_sub`.
  `Nat` subtraction is truncated, which coincides with
  `u128::saturating_sub`.
* The pallet is generic over `T::Currency` (an external multi-currency
  ledger).  The model mirrors this by passing a `LedgerOps` record of
  ledger primitives; `specLedger` is the reference instance described
  by the specification of the external ledger collaborator.
* The external auction manager's `new_collateral_auction` is modelled
  by a failure oracle `am` plus the observable effect of recording the
  created lot in `SystemState.auctionLots`; its
  `get_total_collateral_in_auction` is the state field
  `lockedInAuction`.
* Fallible stateful operations return `SystemState × Option
  DispatchError` (the mutated state plus the error, matching storage
  semantics in which mutations before an error persist unless a
  transactional layer rolls them back).  The `transactional` rollback
  applied to `create_collateral_auctions` models the `#[transactional]`
  attribute of its dispatchable caller `auction_collateral`.
-/

namespace CdpTreasury

/-- Largest `u128` value. -/
def balMax : Nat := 2 ^ 128 - 1

/-- `u128::saturating_add`. -/
def satAdd (a b : Nat) : Nat := min (a + b) balMax

/-- `u128::checked_add`. -/
def checkedAdd (a b : Nat) : Option Nat :=
  if a + b ≤ balMax then some (a + b) else none

/-- `u128::checked_sub`. -/
def checkedSub (a b : Nat) : Option Nat :=
  if b ≤ a then some (a - b) else none

/-- Errors surfaced by the module (`Error<T>` in the source) together
with the arithmetic and ledger errors that reach the same
`DispatchError` type, and an `Other` constructor for errors of external
collaborators that are propagated unchanged. -/
inductive DispatchError where
  | CollateralNotEnough
  | SurplusPoolNotEnough
  | DebitPoolNotEnough
  | InvalidSwapPath
  | ArithmeticOverflow
  | BalanceTooLow
  | Other (code : Nat)
deriving DecidableEq, Repr

/-- Decidable equality for `Except` results, so concrete runs can be
checked by `decide`. -/
instance {ε α : Type} [DecidableEq ε] [DecidableEq α] : DecidableEq (Except ε α) := fun a b =>
  match a, b with
  | Except.ok x, Except.ok y =>
    if h : x = y then isTrue (by rw [h]) else isFalse (by intro hc; injection hc; exact h (by assumption))
  | Except.ok _, Except.error _ => isFalse (fun hc => Except.noConfusion hc)
  | Except.error _, Except.ok _ => isFalse (fun hc => Except.noConfusion hc)
  | Except.error x, Except.error y =>
    if h : x = y then isTrue (by rw [h]) else isFalse (by intro hc; injection hc; exact h (by assumption))

/-- State owned by the external fungible-asset ledger: per
currency/account free balances and per-currency total issuance. -/
structure LedgerState where
  freeBalance : Nat → Nat → Nat
  totalIssuance : Nat → Nat

/-- Modelled from the spec: the interface of the external ledger
collaborator (`T::Currency` in the source, which the pallet is generic
over).  Only the primitives the claims need are included:
`free_balance`, `withdraw` and `deposit`. -/
structure LedgerOps where
  free_balance : Nat → Nat → LedgerState → Nat
  withdrawOp : Nat → Nat → Nat → LedgerState → LedgerState × Option DispatchError
  depositOp : Nat → Nat → Nat → LedgerState → LedgerState × Option DispatchError

/-- Modelled from the spec: the reference behaviour of the external
ledger.  `withdraw` fails (without side effect) when the source account
lacks funds and otherwise burns the amount; `deposit` fails (without
side effect) when total issuance would exceed the representable range
and otherwise mints the amount. -/
def specLedger : LedgerOps where
  free_balance := fun c a l => l.freeBalance c a
  withdrawOp := fun c a amt l =>
    if amt ≤ l.freeBalance c a then
      ({ freeBalance := fun c2 a2 =>
           if c2 = c ∧ a2 = a then l.freeBalance c2 a2 - amt else l.freeBalance c2 a2,
         totalIssuance := fun c2 =>
           if c2 = c then l.totalIssuance c2 - amt else l.totalIssuance c2 }, none)
    else (l, some DispatchError.BalanceTooLow)
  depositOp := fun c a amt l =>
    if l.totalIssuance c + amt ≤ balMax then
      ({ freeBalance := fun c2 a2 =>
           if c2 = c ∧ a2 = a then l.freeBalance c2 a2 + amt else l.freeBalance c2 a2,
         totalIssuance := fun c2 =>
           if c2 = c then l.totalIssuance c2 + amt else l.totalIssuance c2 }, none)
    else (l, some DispatchError.ArithmeticOverflow)

/-- A collateral auction lot recorded at the external auction manager:
refund receiver, collateral currency, lot collateral amount, lot
target. -/
abbrev AuctionLot := Nat × Nat × Nat × Nat

/-- Combined state: the external ledger, the pallet's own storage
(`DebitPool`, `ExpectedCollateralAuctionSize`) and the observable state
of the external auction manager (`lockedInAuction` backs
`get_total_collateral_in_auction`; `auctionLots` records the lots
created through `new_collateral_auction`). -/
structure SystemState where
  ledger : LedgerState
  debitPool : Nat
  expectedAuctionSize : Nat → Nat
  lockedInAuction : Nat → Nat
  auctionLots : List AuctionLot

/-- Runtime configuration constants: `GetStableCurrencyId`,
`MaxAuctionsCount` (a `u32`, converted into `Nat` by the source)
and the module account id (`Self::account_id()`). -/
structure Config where
  stableCurrencyId : Nat
  maxAuctionsCount : Nat
  accountId : Nat

/-- `Pallet::surplus_pool`: stable-currency free balance of the
treasury account. -/
def surplus_pool (cfg : Config) (C : LedgerOps) (s : SystemState) : Nat :=
  C.free_balance cfg.stableCurrencyId cfg.accountId s.ledger

/-- `Pallet::total_collaterals`: free balance of the given collateral
currency at the treasury account. -/
def total_collaterals (cfg : Config) (C : LedgerOps) (currency_id : Nat)
    (s : SystemState) : Nat :=
  C.free_balance currency_id cfg.accountId s.ledger

/-- `Pallet::total_collaterals_not_in_auction`: treasury free balance
minus the auction manager's reported locked amount, via
`saturating_sub` (truncated `Nat` subtraction). -/
def total_collaterals_not_in_auction (cfg : Config) (C : LedgerOps)
    (currency_id : Nat) (s : SystemState) : Nat :=
  total_collaterals cfg C currency_id s - s.lockedInAuction currency_id

/-- `Pallet::offset_surplus_and_debit`.  Returns `none` exactly when
the `expect("offset = min(debit, surplus); qed")` guarding the
`checked_sub` would panic; a failed withdrawal is logged and swallowed,
leaving the debit pool untouched. -/
def offset_surplus_and_debit (cfg : Config) (C : LedgerOps) (s : SystemState) :
    Option SystemState :=
  let offset_amount := min s.debitPool (surplus_pool cfg C s)
  if offset_amount = 0 then some s
  else
    match C.withdrawOp cfg.stableCurrencyId cfg.accountId offset_amount s.ledger with
    | (l1, none) =>
      match checkedSub s.debitPool offset_amount with
      | some d => some { s with ledger := l1, debitPool := d }
      | none => none
    | (l1, some _) => some { s with ledger := l1 }

/-- `CDPTreasury::on_system_debit`: checked increment of the debit
pool; `try_mutate` leaves storage unchanged on error. -/
def on_system_debit (amount : Nat) (s : SystemState) :
    SystemState × Option DispatchError :=
  match checkedAdd s.debitPool amount with
  | some d => ({ s with debitPool := d }, none)
  | none => (s, some DispatchError.ArithmeticOverflow)

/-- `CDPTreasury::issue_debit`: when the issuance is unbacked, first
increment the system debit (propagating its error before any deposit),
then deposit the stable currency to the recipient. -/
def issue_debit (cfg : Config) (C : LedgerOps) (who : Nat) (debit : Nat)
    (backed : Bool) (s : SystemState) : SystemState × Option DispatchError :=
  if backed = false then
    match on_system_debit debit s with
    | (s1, some e) => (s1, some e)
    | (s1, none) =>
      match C.depositOp cfg.stableCurrencyId who debit s1.ledger with
      | (l2, r) => ({ s1 with ledger := l2 }, r)
  else
    match C.depositOp cfg.stableCurrencyId who debit s.ledger with
    | (l2, r) => ({ s with ledger := l2 }, r)

/-- `CDPTreasuryExtended::swap_exact_collateral_to_stable`: availability
check, then swap-path validation, then delegation to the external DEX
primitive `swap_with_exact_supply` (modelled by the abstract function
`dex`, whose result is propagated unchanged). -/
def swap_exact_collateral_to_stable (cfg : Config) (C : LedgerOps)
    (dex : List Nat → Nat → Nat → Except DispatchError Nat)
    (currency_id : Nat) (supply_amount min_target_amount : Nat)
    (swap_path : List Nat) (collateral_in_auction : Bool)
    (s : SystemState) : Except DispatchError Nat :=
  let pathStage : Except DispatchError Nat :=
    if 2 ≤ swap_path.length ∧ swap_path.getD 0 0 = currency_id ∧
        swap_path.getD (swap_path.length - 1) 0 = cfg.stableCurrencyId then
      dex swap_path supply_amount min_target_amount
    else Except.error DispatchError.InvalidSwapPath
  if collateral_in_auction then
    if supply_amount ≤ total_collaterals cfg C currency_id s ∧
        supply_amount ≤ s.lockedInAuction currency_id then pathStage
    else Except.error DispatchError.CollateralNotEnough
  else
    if supply_amount ≤ total_collaterals_not_in_auction cfg C currency_id s then pathStage
    else Except.error DispatchError.CollateralNotEnough

/-- `CDPTreasuryExtended::swap_collateral_to_exact_stable`: same
validation with `max_supply_amount` as the needed amount, then
delegation to `swap_with_exact_target`. -/
def swap_collateral_to_exact_stable (cfg : Config) (C : LedgerOps)
    (dex : List Nat → Nat → Nat → Except DispatchError Nat)
    (currency_id : Nat) (max_supply_amount target_amount : Nat)
    (swap_path : List Nat) (collateral_in_auction : Bool)
    (s : SystemState) : Except DispatchError Nat :=
  let pathStage : Except DispatchError Nat :=
    if 2 ≤ swap_path.length ∧ swap_path.getD 0 0 = currency_id ∧
        swap_path.getD (swap_path.length - 1) 0 = cfg.stableCurrencyId then
      dex swap_path target_amount max_supply_amount
    else Except.error DispatchError.InvalidSwapPath
  if collateral_in_auction then
    if max_supply_amount ≤ total_collaterals cfg C currency_id s ∧
        max_supply_amount ≤ s.lockedInAuction currency_id then pathStage
    else Except.error DispatchError.CollateralNotEnough
  else
    if max_supply_amount ≤ total_collaterals_not_in_auction cfg C currency_id s then pathStage
    else Except.error DispatchError.CollateralNotEnough

/-- The `lots_count` computation of `create_collateral_auctions`: one
lot unless splitting is enabled and applicable, otherwise the rounded-up
quotient of `amount` by the expected lot size, clamped by
`MaxAuctionsCount`.  The two `checked_div` / `checked_rem` calls in the
source cannot fail because the branch guarantees a nonzero divisor;
they are plain `/` and `%` here. -/
def lots_count_calc (splited : Bool) (max_auctions_count expected_size amount : Nat) :
    Nat :=
  if splited = false ∨ max_auctions_count = 0 ∨ expected_size = 0 ∨
      amount ≤ expected_size then 1
  else
    min
      (if amount % expected_size ≠ 0 then satAdd (amount / expected_size) 1
       else amount / expected_size)
      max_auctions_count

/-- The `while !unhandled_collateral_amount.is_zero()` emission loop of
`create_collateral_auctions`, as a fuel-based recursion (the fuel
passed by `create_collateral_auctions_raw` is `lots_count`, which is
proved sufficient: the loop runs at most `lots_count` iterations).
Each iteration calls the external auction manager, modelled by the
failure oracle `am` plus recording the lot in `auctionLots`; an error
aborts the loop and is propagated. -/
def collateralAuctionLoop (am : Nat → Nat → Option DispatchError)
    (refund_receiver : Nat) (currency_id : Nat)
    (lotsCount avgAmount avgTarget : Nat) :
    Nat → Nat → Nat → Nat → SystemState → SystemState × Option DispatchError
  | 0, ua, _, _, s =>
    if ua = 0 then (s, none) else (s, some (DispatchError.Other 0))
  | fuel + 1, ua, ut, created, s =>
    if ua = 0 then (s, none)
    else
      let created1 := satAdd created 1
      let lotAmount := if created1 = lotsCount then ua else avgAmount
      let lotTarget := if created1 = lotsCount then ut else avgTarget
      match am lotAmount lotTarget with
      | some e => (s, some e)
      | none =>
        collateralAuctionLoop am refund_receiver currency_id lotsCount avgAmount avgTarget
          fuel (ua - lotAmount) (ut - lotTarget) created1
          { s with auctionLots :=
              s.auctionLots ++ [(refund_receiver, currency_id, lotAmount, lotTarget)] }

/-- `CDPTreasuryExtended::create_collateral_auctions`, without the
transactional layer: precondition check, lot-count computation, per-lot
averages by the two `checked_div` calls (which cannot fail since
`lots_count ≥ 1`), then the emission loop. -/
def create_collateral_auctions_raw (cfg : Config) (C : LedgerOps)
    (am : Nat → Nat → Option DispatchError)
    (currency_id : Nat) (amount target : Nat)
    (refund_receiver : Nat) (splited : Bool)
    (s : SystemState) : SystemState × Option DispatchError :=
  if ¬ (amount ≤ total_collaterals_not_in_auction cfg C currency_id s) then
    (s, some DispatchError.CollateralNotEnough)
  else
    let lc := lots_count_calc splited cfg.maxAuctionsCount
      (s.expectedAuctionSize currency_id) amount
    let average_amount_per_lot := amount / lc
    let average_target_per_lot := target / lc
    collateralAuctionLoop am refund_receiver currency_id
      lc average_amount_per_lot average_target_per_lot lc amount target 0 s

/-- Storage-transaction rollback: on error every mutation of the
operation is discarded.  Models the `#[transactional]` attribute of the
dispatchable callers (spec section 5). -/
def transactional (f : SystemState → SystemState × Option DispatchError)
    (s : SystemState) : SystemState × Option DispatchError :=
  match f s with
  | (s1, none) => (s1, none)
  | (_, some e) => (s, some e)

/-- `create_collateral_auctions` as observed by callers: the raw
operation under the transactional discipline its dispatchable caller
`auction_collateral` (`#[transactional]`) provides. -/
def create_collateral_auctions (cfg : Config) (C : LedgerOps)
    (am : Nat → Nat → Option DispatchError)
    (currency_id : Nat) (amount target : Nat)
    (refund_receiver : Nat) (splited : Bool)
    (s : SystemState) : SystemState × Option DispatchError :=
  transactional
    (create_collateral_auctions_raw cfg C am currency_id amount target refund_receiver splited)
    s

/-- Operations whose interleavings claim C8 quantifies over. -/
inductive TreasuryOp where
  | systemDebit (amount : Nat)
  | runOffset

/-- Run a sequence of `on_system_debit` / offset-engine invocations.
`on_system_debit` errors are returned to the caller and do not stop the
sequence; the result is `none` exactly when some offset run panics. -/
def runOps (cfg : Config) (C : LedgerOps) :
    List TreasuryOp → SystemState → Option SystemState
  | [], s => some s
  | TreasuryOp.systemDebit a :: rest, s => runOps cfg C rest (on_system_debit a s).1
  | TreasuryOp.runOffset :: rest, s =>
    match offset_surplus_and_debit cfg C s with
    | some s1 => runOps cfg C rest s1
    | none => none

/-- Specification-side description of the lots the emission loop
produces (spec section 4.4): `lots_count - 1` average lots followed by
a final lot holding the remainders; no lots at all when `amount = 0`.
Used to state the refinement of the loop against the specification. -/
def specSplitLots (amount target lc : Nat) : List (Nat × Nat) :=
  if amount = 0 then []
  else
    List.replicate (lc - 1) (amount / lc, target / lc) ++
      [(amount - (lc - 1) * (amount / lc), target - (lc - 1) * (target / lc))]

/-! Concrete fixtures used by scenario conjuncts, witnesses and
counterexamples.  Currency 1 plays the stable currency (AUSD), currency
2 a collateral (DOT); account 7 is the treasury module account. -/

/-- Auction manager oracle that accepts every lot. -/
def amOk : Nat → Nat → Option DispatchError := fun _ _ => none

/-- DEX stub returning a fixed fill, to observe delegation. -/
def dexFixed : List Nat → Nat → Nat → Except DispatchError Nat := fun _ _ _ => Except.ok 42

/-- Base configuration: stable currency 1, `MaxAuctionsCount = 10`,
treasury account 7. -/
def cfgA : Config := { stableCurrencyId := 1, maxAuctionsCount := 10, accountId := 7 }

/-- Configuration with `MaxAuctionsCount = 0` (splitting disabled). -/
def cfgM0 : Config := { stableCurrencyId := 1, maxAuctionsCount := 0, accountId := 7 }

/-- Configuration with `MaxAuctionsCount = 2`. -/
def cfgM2 : Config := { stableCurrencyId := 1, maxAuctionsCount := 2, accountId := 7 }

/-- Empty ledger. -/
def led0 : LedgerState := { freeBalance := fun _ _ => 0, totalIssuance := fun _ => 0 }

/-- Ledger for the offset scenario: 60 stable units at the treasury,
total stable issuance 500. -/
def ledOff : LedgerState :=
  { freeBalance := fun c a => if c = 1 ∧ a = 7 then 60 else 0,
    totalIssuance := fun c => if c = 1 then 500 else 0 }

/-- Ledger holding 1000 of every currency everywhere (ample
collateral for the lot-splitting scenarios). -/
def ledRich : LedgerState := { freeBalance := fun _ _ => 1000, totalIssuance := fun _ => 0 }

/-- Ledger holding 100 of every currency everywhere. -/
def ledSwap : LedgerState := { freeBalance := fun _ _ => 100, totalIssuance := fun _ => 0 }

/-- Ledger holding 30 of every currency everywhere. -/
def ledLock : LedgerState := { freeBalance := fun _ _ => 30, totalIssuance := fun _ => 0 }

/-- State for the lot-splitting scenarios: expected lot size 100 for
every collateral, nothing locked in auction. -/
def sLot : SystemState :=
  { ledger := ledRich, debitPool := 0, expectedAuctionSize := fun _ => 100,
    lockedInAuction := fun _ => 0, auctionLots := [] }

/-- State for the offset scenario: `debit_pool = 100`,
`surplus_pool = 60`. -/
def sOff : SystemState :=
  { ledger := ledOff, debitPool := 100, expectedAuctionSize := fun _ => 0,
    lockedInAuction := fun _ => 0, auctionLots := [] }

/-- Offset-scenario state with an empty debit pool. -/
def sOffZero : SystemState := { sOff with debitPool := 0 }

/-- State for the swap scenarios: 100 free collateral, nothing locked. -/
def sSwap : SystemState :=
  { ledger := ledSwap, debitPool := 0, expectedAuctionSize := fun _ => 0,
    lockedInAuction := fun _ => 0, auctionLots := [] }

/-- State whose auction manager reports more locked collateral (50)
than the treasury holds (30). -/
def sLock : SystemState :=
  { ledger := ledLock, debitPool := 0, expectedAuctionSize := fun _ => 0,
    lockedInAuction := fun _ => 50, auctionLots := [] }

/-- State whose debit pool already sits at the largest `u128` value. -/
def sMax : SystemState :=
  { ledger := led0, debitPool := balMax, expectedAuctionSize := fun _ => 0,
    lockedInAuction := fun _ => 0, auctionLots := [] }

/-- The lot-splitting scenario call: `amount = 250`, `target = 250`,
lot size 100, `MaxAuctionsCount = 10`, splitting enabled. -/
def createA : SystemState × Option DispatchError :=
  create_collateral_auctions cfgA specLedger amOk 2 250 250 9 true sLot

/-! Supporting lemmas about the lot-count computation. -/

theorem balMax_pos : 1 ≤ balMax := by norm_num [balMax]

theorem lots_count_calc_pos (splited : Bool) (mac es amount : Nat) :
    1 ≤ lots_count_calc splited mac es amount := by
  unfold lots_count_calc
  split
  · exact le_refl 1
  · rename_i h
    push_neg at h
    obtain ⟨hs, hmac, hes, hlt⟩ := h
    refine le_min ?_ (by omega)
    split
    · unfold satAdd
      exact le_min (Nat.le_add_left 1 _) balMax_pos
    · rw [Nat.one_le_div_iff (by omega)]
      omega

theorem lots_count_calc_le_amount (splited : Bool) (mac es amount : Nat)
    (h1 : 1 ≤ amount) : lots_count_calc splited mac es amount ≤ amount := by
  unfold lots_count_calc
  split
  · omega
  · rename_i h
    push_neg at h
    obtain ⟨hs, hmac, hes, hlt⟩ := h
    refine le_trans (min_le_left _ _) ?_
    split
    · rename_i hrem
      have hes2 : 2 ≤ es := by
        have hne1 : es ≠ 1 := by
          intro he
          rw [he, Nat.mod_one] at hrem
          exact hrem rfl
        omega
      have hd2 : amount / es ≤ amount / 2 := Nat.div_le_div_left hes2 (by omega)
      have hlt2 : amount / 2 < amount := Nat.div_lt_self (by omega) (by omega)
      have hsat : satAdd (amount / es) 1 ≤ amount / es + 1 := by
        unfold satAdd
        exact min_le_left _ _
      omega
    · exact Nat.div_le_self amount es

theorem lots_count_calc_le_mac (splited : Bool) (mac es amount : Nat)
    (h : 1 ≤ mac) : lots_count_calc splited mac es amount ≤ mac := by
  unfold lots_count_calc
  split
  · omega
  · exact min_le_right _ _

theorem lots_count_calc_le_balMax (splited : Bool) (mac es amount : Nat)
    (hA : amount ≤ balMax) : lots_count_calc splited mac es amount ≤ balMax := by
  unfold lots_count_calc
  have hb := balMax_pos
  split
  · omega
  · refine le_trans (min_le_left _ _) ?_
    split
    · unfold satAdd
      exact min_le_right _ _
    · exact le_trans (Nat.div_le_self amount es) hA

/-! Supporting lemmas about the emission loop. -/

theorem collateralAuctionLoop_zero (am : Nat → Nat → Option DispatchError)
    (r : Nat) (c : Nat) (L avgA avgT : Nat) (f : Nat)
    (ut k : Nat) (s : SystemState) :
    collateralAuctionLoop am r c L avgA avgT f 0 ut k s = (s, none) := by
  cases f <;> simp [collateralAuctionLoop]

theorem satAdd_of_le (a b : Nat) (h : a + b ≤ balMax) : satAdd a b = a + b := by
  unfold satAdd
  exact min_eq_left h

/-- Any error the emission loop returns originates from the auction
manager oracle, provided the fuel accounting invariant holds (the
fuel-exhaustion branch is unreachable). -/
theorem collateralAuctionLoop_error_origin (am : Nat → Nat → Option DispatchError)
    (r c L avgA avgT : Nat) (hLmax : L ≤ balMax) :
    ∀ (f : Nat) (k ua ut : Nat) (s s' : SystemState) (e : DispatchError),
      k ≤ L → f = L - k → (k = L → ua = 0) →
      collateralAuctionLoop am r c L avgA avgT f ua ut k s = (s', some e) →
      ∃ la lt, am la lt = some e := by
  intro f
  induction f with
  | zero =>
    intro k ua ut s s' e hk hf hke hrun
    have hkL : k = L := by omega
    rw [hke hkL, collateralAuctionLoop_zero] at hrun
    simp at hrun
  | succ f ih =>
    intro k ua ut s s' e hk hf hke hrun
    have hkL : k < L := by omega
    by_cases hua : ua = 0
    · subst hua
      rw [collateralAuctionLoop_zero] at hrun
      simp at hrun
    · simp only [collateralAuctionLoop, if_neg hua] at hrun
      have hsat : satAdd k 1 = k + 1 := satAdd_of_le k 1 (by omega)
      rw [hsat] at hrun
      rcases ham : am (if k + 1 = L then ua else avgA) (if k + 1 = L then ut else avgT)
        with _ | e1
      · rw [ham] at hrun
        exact ih (k + 1) _ _ _ _ e (by omega) (by omega)
          (fun h => by simp [if_pos h]) hrun
      · rw [ham] at hrun
        simp only [Prod.mk.injEq, Option.some.injEq] at hrun
        exact ⟨_, _, hrun.2 ▸ ham⟩

/-- On success the emission loop records exactly the remaining lots:
`L - 1 - k` average lots followed by one remainder lot (nothing at all
when the loop is entered at `k = L` with nothing left), touching no
other state component. -/
theorem collateralAuctionLoop_ok_shape (am : Nat → Nat → Option DispatchError)
    (r c L avgA avgT A T : Nat)
    (hL1 : 1 ≤ L) (hLA : L ≤ A) (hLmax : L ≤ balMax)
    (havgA : avgA = A / L) (havgT : avgT = T / L) :
    ∀ (f : Nat) (k ua ut : Nat) (s s' : SystemState),
      k ≤ L → f = L - k →
      (k < L → ua = A - k * avgA ∧ ut = T - k * avgT) →
      (k = L → ua = 0) →
      collateralAuctionLoop am r c L avgA avgT f ua ut k s = (s', none) →
      s' = { s with auctionLots := s.auctionLots ++
        ((if k = L then ([] : List (Nat × Nat))
          else List.replicate (L - 1 - k) (avgA, avgT) ++
            [(A - (L - 1) * avgA, T - (L - 1) * avgT)]).map
          (fun p => (r, c, p.1, p.2))) } := by
  intro f
  induction f with
  | zero =>
    intro k ua ut s s' hk hf hinv hke hrun
    have hkL : k = L := by omega
    rw [hke hkL, collateralAuctionLoop_zero] at hrun
    injection hrun with h1 h2
    subst h1
    simp [hkL]
  | succ f ih =>
    intro k ua ut s s' hk hf hinv hke hrun
    have hkL : k < L := by omega
    obtain ⟨hua', hut'⟩ := hinv hkL
    have havg1 : 1 ≤ avgA := by
      rw [havgA, Nat.one_le_div_iff (by omega)]
      exact hLA
    have hdm : L * avgA + A % L = A := by
      rw [havgA]
      exact Nat.div_add_mod A L
    have hkavg : k * avgA ≤ (L - 1) * avgA := Nat.mul_le_mul_right avgA (by omega)
    have hl1avg : (L - 1) * avgA + avgA = L * avgA := by
      have h9 : L - 1 + 1 = L := by omega
      calc (L - 1) * avgA + avgA = (L - 1 + 1) * avgA := by ring
      _ = L * avgA := by rw [h9]
    have hua0 : ua ≠ 0 := by omega
    simp only [collateralAuctionLoop, if_neg hua0] at hrun
    have hsat : satAdd k 1 = k + 1 := satAdd_of_le k 1 (by omega)
    rw [hsat] at hrun
    by_cases hk1 : k + 1 = L
    · rw [if_pos hk1, if_pos hk1] at hrun
      rcases ham : am ua ut with _ | e1
      · rw [ham] at hrun
        have hf0 : f = 0 := by omega
        subst hf0
        rw [Nat.sub_self, collateralAuctionLoop_zero] at hrun
        injection hrun with h1 h2
        have hkeq : k = L - 1 := by omega
        rw [← h1, hua', hut', hkeq]
        simp [show ¬ (L - 1 = L) by omega]
      · rw [ham] at hrun
        simp at hrun
    · rw [if_neg hk1, if_neg hk1] at hrun
      rcases ham : am avgA avgT with _ | e1
      · rw [ham] at hrun
        have hsmA : (k + 1) * avgA = k * avgA + avgA := Nat.succ_mul k avgA
        have hsmT : (k + 1) * avgT = k * avgT + avgT := Nat.succ_mul k avgT
        have hres := ih (k + 1) (ua - avgA) (ut - avgT) _ s' (by omega) (by omega)
          (fun _ => ⟨by omega, by omega⟩) (fun h => absurd h hk1) hrun
        rw [hres]
        have hrep : L - 1 - k = (L - 1 - (k + 1)) + 1 := by omega
        simp only [if_neg (show ¬ k = L by omega), if_neg (show ¬ k + 1 = L from hk1),
          hrep, List.replicate_succ, List.map_cons, List.map_append, List.cons_append,
          List.append_assoc]
        simp
      · rw [ham] at hrun
        simp at hrun

/-- A successful `create_collateral_auctions` call appends exactly the
specification-side lot list `specSplitLots` to the auction manager's
records and changes nothing else. -/
theorem create_collateral_auctions_ok_shape (cfg : Config) (C : LedgerOps)
    (am : Nat → Nat → Option DispatchError) (currency_id amount target r : Nat)
    (splited : Bool) (s s' : SystemState) (hA : amount ≤ balMax)
    (h : create_collateral_auctions cfg C am currency_id amount target r splited s =
      (s', none)) :
    s' = { s with auctionLots := s.auctionLots ++
      (specSplitLots amount target
        (lots_count_calc splited cfg.maxAuctionsCount (s.expectedAuctionSize currency_id)
          amount)).map (fun p => (r, currency_id, p.1, p.2)) } := by
  unfold create_collateral_auctions transactional at h
  rcases hraw : create_collateral_auctions_raw cfg C am currency_id amount target r splited s
    with ⟨s1, res⟩
  rw [hraw] at h
  rcases res with _ | e
  · injection h with h1 h2
    subst h1
    unfold create_collateral_auctions_raw at hraw
    rcases Nat.lt_or_ge (total_collaterals_not_in_auction cfg C currency_id s) amount
      with hpre | hpre
    · rw [if_pos (by omega)] at hraw
      simp at hraw
    · rw [if_neg (by omega)] at hraw
      by_cases h0 : amount = 0
      · subst h0
        rw [collateralAuctionLoop_zero] at hraw
        injection hraw with h3 h4
        subst h3
        simp [specSplitLots]
      · have hL1 := lots_count_calc_pos splited cfg.maxAuctionsCount
          (s.expectedAuctionSize currency_id) amount
        have hLA := lots_count_calc_le_amount splited cfg.maxAuctionsCount
          (s.expectedAuctionSize currency_id) amount (by omega)
        have hLmax := lots_count_calc_le_balMax splited cfg.maxAuctionsCount
          (s.expectedAuctionSize currency_id) amount hA
        have hres := collateralAuctionLoop_ok_shape am r currency_id
          (lots_count_calc splited cfg.maxAuctionsCount (s.expectedAuctionSize currency_id)
            amount)
          _ _ amount target hL1 hLA hLmax rfl rfl
          _ 0 amount target s s1 (by omega) (by omega)
          (fun _ => ⟨by omega, by omega⟩) (fun hc => absurd hc.symm (by omega)) hraw
        rw [hres]
        simp only [specSplitLots, if_neg h0, if_neg (show ¬ (0 : Nat) =
          lots_count_calc splited cfg.maxAuctionsCount (s.expectedAuctionSize currency_id)
            amount by omega), Nat.sub_zero]
  · simp at h

/-! Claim theorems. -/

/-- C2: a single `offset_surplus_and_debit` run computes
`offset = min(debit_pool, surplus_pool)`; if the offset is zero it
changes nothing; otherwise it withdraws (burns) the offset from the
treasury account and on success decrements the debit pool by the
offset; a failed withdrawal is swallowed, leaving everything unchanged;
and from `debit_pool = 100`, `surplus_pool = 60` one run yields
`debit_pool = 40`, `surplus_pool = 0` and stable issuance reduced from
500 to 440. -/
theorem c2_offset_engine :
    (∀ (cfg : Config) (C : LedgerOps) (s : SystemState),
      min s.debitPool (surplus_pool cfg C s) = 0 →
      offset_surplus_and_debit cfg C s = some s) ∧
    (∀ (cfg : Config) (C : LedgerOps) (s : SystemState) (l1 : LedgerState),
      0 < min s.debitPool (surplus_pool cfg C s) →
      C.withdrawOp cfg.stableCurrencyId cfg.accountId
        (min s.debitPool (surplus_pool cfg C s)) s.ledger = (l1, none) →
      offset_surplus_and_debit cfg C s =
        some { s with
                ledger := l1,
                debitPool := s.debitPool - min s.debitPool (surplus_pool cfg C s) }) ∧
    (∀ (cfg : Config) (C : LedgerOps) (s : SystemState) (e : DispatchError),
      C.withdrawOp cfg.stableCurrencyId cfg.accountId
        (min s.debitPool (surplus_pool cfg C s)) s.ledger = (s.ledger, some e) →
      offset_surplus_and_debit cfg C s = some s) ∧
    ((offset_surplus_and_debit cfgA specLedger sOff).map
      (fun t => (t.debitPool, surplus_pool cfgA specLedger t, t.ledger.totalIssuance 1)) =
      some (40, 0, 440)) := by
  refine ⟨?_, ?_, ?_, ?_⟩
  · intro cfg C s h
    simp only [offset_surplus_and_debit]
    rw [if_pos h]
  · intro cfg C s l1 hpos hw
    have hcs : checkedSub s.debitPool (min s.debitPool (surplus_pool cfg C s)) =
        some (s.debitPool - min s.debitPool (surplus_pool cfg C s)) := by
      unfold checkedSub
      rw [if_pos (min_le_left _ _)]
    simp only [offset_surplus_and_debit]
    rw [if_neg (by omega), hw]
    dsimp only
    rw [hcs]
  · intro cfg C s e hw
    by_cases h0 : min s.debitPool (surplus_pool cfg C s) = 0
    · simp only [offset_surplus_and_debit]
      rw [if_pos h0]
    · simp only [offset_surplus_and_debit]
      rw [if_neg h0, hw]
  · decide

/-- C2 witness: a concrete zero-offset run is a no-op. -/
theorem c2_offset_engine_witness :
    offset_surplus_and_debit cfgA specLedger sOffZero = some sOffZero :=
  c2_offset_engine.1 cfgA specLedger sOffZero (by decide)

/-- C3: `lots_count` is 1 when splitting is off, the max count is 0,
the expected lot size is 0, or the amount fits in one lot; otherwise it
is the rounded-up quotient clamped by the max count; and the two
concrete scenarios produce lots `(83, 83, 84)` and `(125, 125)`. -/
theorem c3_lots_count_formula :
    (∀ (splited : Bool) (mac es amount : Nat), amount ≤ balMax →
      lots_count_calc splited mac es amount =
        if splited = false ∨ mac = 0 ∨ es = 0 ∨ amount ≤ es then 1
        else min (amount / es + if amount % es ≠ 0 then 1 else 0) mac) ∧
    (createA.1.auctionLots.map (fun l => l.2.2.1) = [83, 83, 84] ∧ createA.2 = none) ∧
    ((create_collateral_auctions cfgM2 specLedger amOk 2 250 250 9 true sLot).1.auctionLots.map
      (fun l => l.2.2.1) = [125, 125] ∧
      (create_collateral_auctions cfgM2 specLedger amOk 2 250 250 9 true sLot).2 = none) := by
  refine ⟨?_, by decide, by decide⟩
  intro splited mac es amount hA
  unfold lots_count_calc
  split
  · rfl
  · rename_i h
    push_neg at h
    obtain ⟨hs, hmac, hes, hlt⟩ := h
    congr 1
    split
    · rename_i hrem
      have hd : amount / es ≤ amount := Nat.div_le_self amount es
      have hne : amount / es ≠ balMax := by
        intro he
        have h1 : amount = balMax := by omega
        have h2 : amount / es = amount := by omega
        rcases (Nat.div_eq_self).1 h2 with h3 | h3
        · omega
        · rw [h3, Nat.mod_one] at hrem
          exact hrem rfl
      exact satAdd_of_le _ 1 (by omega)
    · omega

/-- C3 witness: the formula evaluated at the first scenario gives three
lots. -/
theorem c3_lots_count_formula_witness : lots_count_calc true 10 100 250 = 3 := by
  have h := c3_lots_count_formula.1 true 10 100 250 (by decide)
  rw [h]
  decide

/-- C9: `total_collaterals_not_in_auction` is the treasury balance
minus the reported locked amount, clamped at zero by saturating
subtraction (never underflowing when the locked report exceeds the
balance). -/
theorem c9_collaterals_not_in_auction_saturating (cfg : Config) (C : LedgerOps)
    (c : Nat) (s : SystemState) :
    (s.lockedInAuction c ≤ total_collaterals cfg C c s →
      total_collaterals_not_in_auction cfg C c s + s.lockedInAuction c =
        total_collaterals cfg C c s) ∧
    (total_collaterals cfg C c s ≤ s.lockedInAuction c →
      total_collaterals_not_in_auction cfg C c s = 0) := by
  unfold total_collaterals_not_in_auction
  omega

/-- C9 witness: with 30 held and 50 reported locked, the result is 0. -/
theorem c9_collaterals_not_in_auction_saturating_witness :
    total_collaterals_not_in_auction cfgA specLedger 2 sLock = 0 :=
  (c9_collaterals_not_in_auction_saturating cfgA specLedger 2 sLock).2 (by decide)

/-- C10: when incrementing the debit pool would overflow, unbacked
`issue_debit` fails with an arithmetic overflow before any deposit,
leaving the entire state unchanged (for every ledger implementation,
since the deposit primitive is never reached). -/
theorem c10_issue_debit_overflow (cfg : Config) (C : LedgerOps) (who amount : Nat)
    (s : SystemState) (h : balMax < s.debitPool + amount) :
    issue_debit cfg C who amount false s = (s, some DispatchError.ArithmeticOverflow) := by
  unfold issue_debit on_system_debit checkedAdd
  rw [if_pos rfl, if_neg (by omega)]

/-- C10 witness: from a debit pool already at `u128::MAX`, issuing one
more unbacked unit fails with overflow and changes nothing. -/
theorem c10_issue_debit_overflow_witness :
    issue_debit cfgA specLedger 3 1 false sMax = (sMax, some DispatchError.ArithmeticOverflow) :=
  c10_issue_debit_overflow cfgA specLedger 3 1 sMax (by decide)

/-- C4: `create_collateral_auctions` fails with `CollateralNotEnough`
before any mutation when the free collateral does not cover the amount;
and every failing call leaves the state exactly as it was (no partial
lots survive) with the error being either that precondition failure or
an auction-manager error propagated unchanged. -/
theorem c4_error_contract_atomicity (cfg : Config) (C : LedgerOps)
    (am : Nat → Nat → Option DispatchError) (currency_id amount target r : Nat)
    (splited : Bool) (s : SystemState) (hA : amount ≤ balMax) :
    (total_collaterals_not_in_auction cfg C currency_id s < amount →
      create_collateral_auctions cfg C am currency_id amount target r splited s =
        (s, some DispatchError.CollateralNotEnough)) ∧
    (∀ (s' : SystemState) (e : DispatchError),
      create_collateral_auctions cfg C am currency_id amount target r splited s =
        (s', some e) →
      s' = s ∧ (e = DispatchError.CollateralNotEnough ∨ ∃ la lt, am la lt = some e)) := by
  constructor
  · intro hlt
    unfold create_collateral_auctions transactional create_collateral_auctions_raw
    rw [if_pos (by omega)]
  · intro s' e h
    unfold create_collateral_auctions transactional at h
    rcases hraw : create_collateral_auctions_raw cfg C am currency_id amount target r splited s
      with ⟨s1, res⟩
    rw [hraw] at h
    rcases res with _ | e1
    · simp at h
    · simp only [Prod.mk.injEq, Option.some.injEq] at h
      obtain ⟨hs, he⟩ := h
      subst hs
      subst he
      refine ⟨rfl, ?_⟩
      unfold create_collateral_auctions_raw at hraw
      by_cases hpre : ¬ (amount ≤ total_collaterals_not_in_auction cfg C currency_id s)
      · rw [if_pos hpre] at hraw
        injection hraw with h3 h4
        injection h4 with h5
        exact Or.inl h5.symm
      · rw [if_neg hpre] at hraw
        have hL1 := lots_count_calc_pos splited cfg.maxAuctionsCount
          (s.expectedAuctionSize currency_id) amount
        have hLmax := lots_count_calc_le_balMax splited cfg.maxAuctionsCount
          (s.expectedAuctionSize currency_id) amount hA
        exact Or.inr (collateralAuctionLoop_error_origin am r currency_id _ _ _ hLmax
          _ 0 amount target s s1 e1 (by omega) (by omega) (fun hc => absurd hc.symm (by omega))
          hraw)

/-- C4 witness: a concrete underfunded call (only 30 free collateral,
amount 40) fails with `CollateralNotEnough` and leaves the state
unchanged. -/
theorem c4_error_contract_atomicity_witness :
    create_collateral_auctions cfgA specLedger amOk 2 40 40 9 true sLock =
      (sLock, some DispatchError.CollateralNotEnough) :=
  (c4_error_contract_atomicity cfgA specLedger amOk 2 40 40 9 true sLock (by decide)).1
    (by decide)

/-- C8: no sequence of `on_system_debit` / offset-engine invocations
can make the offset engine's guarded subtraction underflow (the
defensive `expect` never fires), and the debit pool, a natural number,
stays non-negative throughout. -/
theorem c8_debit_pool_nonnegative (cfg : Config) (C : LedgerOps)
    (ops : List TreasuryOp) (s : SystemState) :
    ∃ s', runOps cfg C ops s = some s' ∧ 0 ≤ s'.debitPool := by
  induction ops generalizing s with
  | nil => exact ⟨s, rfl, Nat.zero_le _⟩
  | cons op rest ih =>
    cases op with
    | systemDebit a => simpa [runOps] using ih (on_system_debit a s).1
    | runOffset =>
      have htot : ∃ t, offset_surplus_and_debit cfg C s = some t := by
        by_cases h0 : min s.debitPool (surplus_pool cfg C s) = 0
        · refine ⟨s, ?_⟩
          simp only [offset_surplus_and_debit]
          rw [if_pos h0]
        · simp only [offset_surplus_and_debit]
          rw [if_neg h0]
          rcases hw : C.withdrawOp cfg.stableCurrencyId cfg.accountId
            (min s.debitPool (surplus_pool cfg C s)) s.ledger with ⟨l1, rw1⟩
          rcases rw1 with _ | e
          · have hcs : checkedSub s.debitPool (min s.debitPool (surplus_pool cfg C s)) =
                some (s.debitPool - min s.debitPool (surplus_pool cfg C s)) := by
              unfold checkedSub
              rw [if_pos (min_le_left _ _)]
            refine ⟨{ s with
                      ledger := l1,
                      debitPool := s.debitPool - min s.debitPool (surplus_pool cfg C s) }, ?_⟩
            dsimp only
            rw [hcs]
          · exact ⟨{ s with ledger := l1 }, rfl⟩
      obtain ⟨t, ht⟩ := htot
      obtain ⟨s', hs', hnn⟩ := ih t
      exact ⟨s', by simp [runOps, ht, hs'], hnn⟩

/-- C6: both swap operations fail with `CollateralNotEnough` unless the
needed amount (`supply_amount` for exact-supply, `max_supply_amount`
for exact-target) is covered — by both the total and the
locked-in-auction collateral when `collateral_in_auction` is set, and
by the not-in-auction collateral otherwise; when covered, execution
proceeds to path validation and DEX delegation. -/
theorem c6_swap_availability (cfg : Config) (C : LedgerOps)
    (dex1 dex2 : List Nat → Nat → Nat → Except DispatchError Nat)
    (currency_id supply_amount min_target_amount max_supply_amount target_amount : Nat)
    (swap_path : List Nat) (flag : Bool) (s : SystemState) :
    (flag = true →
      ¬ (supply_amount ≤ total_collaterals cfg C currency_id s ∧
          supply_amount ≤ s.lockedInAuction currency_id) →
      swap_exact_collateral_to_stable cfg C dex1 currency_id supply_amount min_target_amount
        swap_path flag s = Except.error DispatchError.CollateralNotEnough) ∧
    (flag = false →
      ¬ (supply_amount ≤ total_collaterals_not_in_auction cfg C currency_id s) →
      swap_exact_collateral_to_stable cfg C dex1 currency_id supply_amount min_target_amount
        swap_path flag s = Except.error DispatchError.CollateralNotEnough) ∧
    (flag = true →
      (supply_amount ≤ total_collaterals cfg C currency_id s ∧
        supply_amount ≤ s.lockedInAuction currency_id) →
      swap_exact_collateral_to_stable cfg C dex1 currency_id supply_amount min_target_amount
        swap_path flag s =
        (if 2 ≤ swap_path.length ∧ swap_path.getD 0 0 = currency_id ∧
            swap_path.getD (swap_path.length - 1) 0 = cfg.stableCurrencyId then
          dex1 swap_path supply_amount min_target_amount
        else Except.error DispatchError.InvalidSwapPath)) ∧
    (flag = false →
      supply_amount ≤ total_collaterals_not_in_auction cfg C currency_id s →
      swap_exact_collateral_to_stable cfg C dex1 currency_id supply_amount min_target_amount
        swap_path flag s =
        (if 2 ≤ swap_path.length ∧ swap_path.getD 0 0 = currency_id ∧
            swap_path.getD (swap_path.length - 1) 0 = cfg.stableCurrencyId then
          dex1 swap_path supply_amount min_target_amount
        else Except.error DispatchError.InvalidSwapPath)) ∧
    (flag = true →
      ¬ (max_supply_amount ≤ total_collaterals cfg C currency_id s ∧
          max_supply_amount ≤ s.lockedInAuction currency_id) →
      swap_collateral_to_exact_stable cfg C dex2 currency_id max_supply_amount target_amount
        swap_path flag s = Except.error DispatchError.CollateralNotEnough) ∧
    (flag = false →
      ¬ (max_supply_amount ≤ total_collaterals_not_in_auction cfg C currency_id s) →
      swap_collateral_to_exact_stable cfg C dex2 currency_id max_supply_amount target_amount
        swap_path flag s = Except.error DispatchError.CollateralNotEnough) ∧
    (flag = true →
      (max_supply_amount ≤ total_collaterals cfg C currency_id s ∧
        max_supply_amount ≤ s.lockedInAuction currency_id) →
      swap_collateral_to_exact_stable cfg C dex2 currency_id max_supply_amount target_amount
        swap_path flag s =
        (if 2 ≤ swap_path.length ∧ swap_path.getD 0 0 = currency_id ∧
            swap_path.getD (swap_path.length - 1) 0 = cfg.stableCurrencyId then
          dex2 swap_path target_amount max_supply_amount
        else Except.error DispatchError.InvalidSwapPath)) ∧
    (flag = false →
      max_supply_amount ≤ total_collaterals_not_in_auction cfg C currency_id s →
      swap_collateral_to_exact_stable cfg C dex2 currency_id max_supply_amount target_amount
        swap_path flag s =
        (if 2 ≤ swap_path.length ∧ swap_path.getD 0 0 = currency_id ∧
            swap_path.getD (swap_path.length - 1) 0 = cfg.stableCurrencyId then
          dex2 swap_path target_amount max_supply_amount
        else Except.error DispatchError.InvalidSwapPath)) := by
  refine ⟨?_, ?_, ?_, ?_, ?_, ?_, ?_, ?_⟩
  · intro hf h
    subst hf
    simp only [swap_exact_collateral_to_stable]
    rw [if_pos trivial, if_neg h]
  · intro hf h
    subst hf
    simp only [swap_exact_collateral_to_stable]
    rw [if_neg Bool.false_ne_true, if_neg h]
  · intro hf h
    subst hf
    simp only [swap_exact_collateral_to_stable]
    rw [if_pos trivial, if_pos h]
  · intro hf h
    subst hf
    simp only [swap_exact_collateral_to_stable]
    rw [if_neg Bool.false_ne_true, if_pos h]
  · intro hf h
    subst hf
    simp only [swap_collateral_to_exact_stable]
    rw [if_pos trivial, if_neg h]
  · intro hf h
    subst hf
    simp only [swap_collateral_to_exact_stable]
    rw [if_neg Bool.false_ne_true, if_neg h]
  · intro hf h
    subst hf
    simp only [swap_collateral_to_exact_stable]
    rw [if_pos trivial, if_pos h]
  · intro hf h
    subst hf
    simp only [swap_collateral_to_exact_stable]
    rw [if_neg Bool.false_ne_true, if_pos h]

/-- C6 witness: with 30 total collateral but a needed amount of 40 and
`collateral_in_auction = true`, the exact-supply swap fails with
`CollateralNotEnough`. -/
theorem c6_swap_availability_witness :
    swap_exact_collateral_to_stable cfgA specLedger dexFixed 2 40 1 [2, 1] true sLock =
      Except.error DispatchError.CollateralNotEnough :=
  (c6_swap_availability cfgA specLedger dexFixed dexFixed 2 40 1 0 0 [2, 1] true sLock).1
    rfl (by decide)

/-- C7: once availability passes, both swap operations fail with
`InvalidSwapPath` unless the path has length at least two, starts at
the supplied collateral currency and ends at the stable currency; the
concrete path `[DOT]` is rejected while `[DOT, AUSD]` is accepted and
delegated to the DEX (whose fill is returned unchanged). -/
theorem c7_swap_path_validation :
    (∀ (cfg : Config) (C : LedgerOps)
      (dex : List Nat → Nat → Nat → Except DispatchError Nat)
      (currency_id supply_amount min_target_amount : Nat)
      (swap_path : List Nat) (flag : Bool) (s : SystemState),
      ((flag = true → supply_amount ≤ total_collaterals cfg C currency_id s ∧
          supply_amount ≤ s.lockedInAuction currency_id) ∧
        (flag = false → supply_amount ≤ total_collaterals_not_in_auction cfg C currency_id s)) →
      ¬ (2 ≤ swap_path.length ∧ swap_path.getD 0 0 = currency_id ∧
          swap_path.getD (swap_path.length - 1) 0 = cfg.stableCurrencyId) →
      swap_exact_collateral_to_stable cfg C dex currency_id supply_amount min_target_amount
        swap_path flag s = Except.error DispatchError.InvalidSwapPath) ∧
    (∀ (cfg : Config) (C : LedgerOps)
      (dex : List Nat → Nat → Nat → Except DispatchError Nat)
      (currency_id max_supply_amount target_amount : Nat)
      (swap_path : List Nat) (flag : Bool) (s : SystemState),
      ((flag = true → max_supply_amount ≤ total_collaterals cfg C currency_id s ∧
          max_supply_amount ≤ s.lockedInAuction currency_id) ∧
        (flag = false →
          max_supply_amount ≤ total_collaterals_not_in_auction cfg C currency_id s)) →
      ¬ (2 ≤ swap_path.length ∧ swap_path.getD 0 0 = currency_id ∧
          swap_path.getD (swap_path.length - 1) 0 = cfg.stableCurrencyId) →
      swap_collateral_to_exact_stable cfg C dex currency_id max_supply_amount target_amount
        swap_path flag s = Except.error DispatchError.InvalidSwapPath) ∧
    (swap_exact_collateral_to_stable cfgA specLedger dexFixed 2 10 1 [2] false sSwap =
      Except.error DispatchError.InvalidSwapPath) ∧
    (swap_exact_collateral_to_stable cfgA specLedger dexFixed 2 10 1 [2, 1] false sSwap =
      Except.ok 42) := by
  refine ⟨?_, ?_, by decide, by decide⟩
  · intro cfg C dex currency_id a b swap_path flag s havail hpath
    cases flag
    · simp only [swap_exact_collateral_to_stable]
      rw [if_neg Bool.false_ne_true, if_pos (havail.2 rfl), if_neg hpath]
    · simp only [swap_exact_collateral_to_stable]
      rw [if_pos trivial, if_pos (havail.1 rfl), if_neg hpath]
  · intro cfg C dex currency_id a b swap_path flag s havail hpath
    cases flag
    · simp only [swap_collateral_to_exact_stable]
      rw [if_neg Bool.false_ne_true, if_pos (havail.2 rfl), if_neg hpath]
    · simp only [swap_collateral_to_exact_stable]
      rw [if_pos trivial, if_pos (havail.1 rfl), if_neg hpath]

/-- C7 witness: a two-hop path that does not start at the supplied
collateral currency is rejected with `InvalidSwapPath`. -/
theorem c7_swap_path_validation_witness :
    swap_exact_collateral_to_stable cfgA specLedger dexFixed 2 10 1 [3, 3] false sSwap =
      Except.error DispatchError.InvalidSwapPath :=
  c7_swap_path_validation.1 cfgA specLedger dexFixed 2 10 1 [3, 3] false sSwap
    (by constructor <;> intro h <;> first | exact absurd h (by decide) | decide)
    (by decide)

theorem sum_replicate_nat (n x : Nat) : (List.replicate n x).sum = n * x := by
  induction n with
  | zero => simp
  | succ n ih =>
    rw [List.replicate_succ, List.sum_cons, ih]
    ring

theorem create_collateral_auctions_raw_zero (cfg : Config) (C : LedgerOps)
    (am : Nat → Nat → Option DispatchError) (currency_id target r : Nat)
    (splited : Bool) (s : SystemState) :
    create_collateral_auctions_raw cfg C am currency_id 0 target r splited s = (s, none) := by
  unfold create_collateral_auctions_raw
  rw [if_neg (by simp)]
  exact collateralAuctionLoop_zero am r currency_id _ _ _ _ target 0 s

/-- C1 counterexample: calling with `amount = 0` and `target = 1`
succeeds with zero lots, so the emitted lot targets sum to 0, not to
the requested target 1 — the conservation claim fails as stated. -/
theorem c1_lot_conservation_counterexample :
    (create_collateral_auctions cfgA specLedger amOk 2 0 1 9 true sLot).2 = none ∧
    ((create_collateral_auctions cfgA specLedger amOk 2 0 1 9 true sLot).1.auctionLots.map
      (fun l => l.2.2.2)).sum = 0 ∧ (0 : Nat) ≠ 1 := by
  decide

/-- C1 (amended): for every successful call the emitted lot amounts sum
exactly to `amount`; every lot but the last carries the per-lot
averages and the last lot the remainders; and whenever `amount > 0` the
lot targets also sum exactly to `target` (when `amount = 0` no lots are
emitted, so a nonzero `target` is dropped rather than conserved). -/
theorem c1_lot_conservation_amended (cfg : Config) (C : LedgerOps)
    (am : Nat → Nat → Option DispatchError) (currency_id amount target r : Nat)
    (splited : Bool) (s s' : SystemState) (hA : amount ≤ balMax)
    (h : create_collateral_auctions cfg C am currency_id amount target r splited s =
      (s', none)) :
    ∃ lots : List (Nat × Nat),
      s'.auctionLots = s.auctionLots ++ lots.map (fun p => (r, currency_id, p.1, p.2)) ∧
      (lots.map Prod.fst).sum = amount ∧
      (0 < amount → (lots.map Prod.snd).sum = target) ∧
      (∀ p ∈ lots.dropLast,
        p = (amount / lots_count_calc splited cfg.maxAuctionsCount
                (s.expectedAuctionSize currency_id) amount,
             target / lots_count_calc splited cfg.maxAuctionsCount
                (s.expectedAuctionSize currency_id) amount)) ∧
      (0 < amount → lots.getLast? = some
        (amount - (lots_count_calc splited cfg.maxAuctionsCount
            (s.expectedAuctionSize currency_id) amount - 1) *
          (amount / lots_count_calc splited cfg.maxAuctionsCount
            (s.expectedAuctionSize currency_id) amount),
         target - (lots_count_calc splited cfg.maxAuctionsCount
            (s.expectedAuctionSize currency_id) amount - 1) *
          (target / lots_count_calc splited cfg.maxAuctionsCount
            (s.expectedAuctionSize currency_id) amount))) := by
  have hshape := create_collateral_auctions_ok_shape cfg C am currency_id amount target r
    splited s s' hA h
  refine ⟨specSplitLots amount target
    (lots_count_calc splited cfg.maxAuctionsCount (s.expectedAuctionSize currency_id) amount),
    by rw [hshape], ?_, ?_, ?_, ?_⟩
  · by_cases h0 : amount = 0
    · subst h0
      simp [specSplitLots]
    · have hL1 := lots_count_calc_pos splited cfg.maxAuctionsCount
        (s.expectedAuctionSize currency_id) amount
      have h1 := Nat.div_mul_le_self amount
        (lots_count_calc splited cfg.maxAuctionsCount (s.expectedAuctionSize currency_id)
          amount)
      have h2 : (lots_count_calc splited cfg.maxAuctionsCount
          (s.expectedAuctionSize currency_id) amount - 1) *
          (amount / lots_count_calc splited cfg.maxAuctionsCount
            (s.expectedAuctionSize currency_id) amount) ≤
          amount / lots_count_calc splited cfg.maxAuctionsCount
            (s.expectedAuctionSize currency_id) amount *
          lots_count_calc splited cfg.maxAuctionsCount (s.expectedAuctionSize currency_id)
            amount := by
        rw [mul_comm]
        exact Nat.mul_le_mul_left _ (by omega)
      simp [specSplitLots, h0, sum_replicate_nat]
      omega
  · intro hpos
    have hL1 := lots_count_calc_pos splited cfg.maxAuctionsCount
      (s.expectedAuctionSize currency_id) amount
    have h1 := Nat.div_mul_le_self target
      (lots_count_calc splited cfg.maxAuctionsCount (s.expectedAuctionSize currency_id)
        amount)
    have h2 : (lots_count_calc splited cfg.maxAuctionsCount
        (s.expectedAuctionSize currency_id) amount - 1) *
        (target / lots_count_calc splited cfg.maxAuctionsCount
          (s.expectedAuctionSize currency_id) amount) ≤
        target / lots_count_calc splited cfg.maxAuctionsCount
          (s.expectedAuctionSize currency_id) amount *
        lots_count_calc splited cfg.maxAuctionsCount (s.expectedAuctionSize currency_id)
          amount := by
      rw [mul_comm]
      exact Nat.mul_le_mul_left _ (by omega)
    simp [specSplitLots, show amount ≠ 0 by omega, sum_replicate_nat]
    omega
  · intro p hp
    by_cases h0 : amount = 0
    · subst h0
      simp [specSplitLots] at hp
    · simp only [specSplitLots, if_neg h0, List.dropLast_concat] at hp
      exact List.eq_of_mem_replicate hp
  · intro hpos
    simp [specSplitLots, show amount ≠ 0 by omega]

/-- C1 witness: the `amount = target = 250`, lot-size-100 scenario
instantiates the amended conservation statement. -/
theorem c1_lot_conservation_witness :
    ∃ lots : List (Nat × Nat),
      createA.1.auctionLots = sLot.auctionLots ++ lots.map (fun p => (9, 2, p.1, p.2)) ∧
      (lots.map Prod.fst).sum = 250 ∧
      (0 < 250 → (lots.map Prod.snd).sum = 250) ∧
      (∀ p ∈ lots.dropLast,
        p = (250 / lots_count_calc true cfgA.maxAuctionsCount (sLot.expectedAuctionSize 2) 250,
             250 / lots_count_calc true cfgA.maxAuctionsCount (sLot.expectedAuctionSize 2) 250)) ∧
      (0 < 250 → lots.getLast? = some
        (250 - (lots_count_calc true cfgA.maxAuctionsCount (sLot.expectedAuctionSize 2) 250 - 1) *
          (250 / lots_count_calc true cfgA.maxAuctionsCount (sLot.expectedAuctionSize 2) 250),
         250 - (lots_count_calc true cfgA.maxAuctionsCount (sLot.expectedAuctionSize 2) 250 - 1) *
          (250 / lots_count_calc true cfgA.maxAuctionsCount (sLot.expectedAuctionSize 2) 250))) := by
  have hr : createA.2 = none := by decide
  have h : create_collateral_auctions cfgA specLedger amOk 2 250 250 9 true sLot =
      (createA.1, none) := by
    rw [← hr]
    rfl
  exact c1_lot_conservation_amended cfgA specLedger amOk 2 250 250 9 true sLot createA.1
    (by decide) h

/-- C5 counterexample: with `MaxAuctionsCount = 0` and a positive
amount, the call succeeds and creates one lot, exceeding the zero lot
bound — the "never exceeds max_auctions_count" claim fails as stated
when the parameter is zero (which the source documents as "does not
work"). -/
theorem c5_lot_bound_counterexample :
    (create_collateral_auctions cfgM0 specLedger amOk 2 5 5 9 true sLot).2 = none ∧
    (create_collateral_auctions cfgM0 specLedger amOk 2 5 5 9 true sLot).1.auctionLots.length
      = 1 ∧
    ¬ (1 ≤ cfgM0.maxAuctionsCount) := by
  decide

/-- C5 (amended): whenever `MaxAuctionsCount ≥ 1` a successful call
creates at most `MaxAuctionsCount` lots (with `MaxAuctionsCount = 0`
splitting is disabled and a positive amount yields exactly one lot); a
successful call with positive amount creates at least one lot; and a
call with `amount = 0` succeeds, creating no lots and changing
nothing. -/
theorem c5_lot_bound_amended (cfg : Config) (C : LedgerOps)
    (am : Nat → Nat → Option DispatchError) (currency_id amount target r : Nat)
    (splited : Bool) (s : SystemState) (hA : amount ≤ balMax) :
    (amount = 0 →
      create_collateral_auctions cfg C am currency_id amount target r splited s = (s, none)) ∧
    (∀ s' : SystemState,
      create_collateral_auctions cfg C am currency_id amount target r splited s = (s', none) →
      (1 ≤ cfg.maxAuctionsCount →
        s'.auctionLots.length ≤ s.auctionLots.length + cfg.maxAuctionsCount) ∧
      (0 < amount → s.auctionLots.length < s'.auctionLots.length) ∧
      (amount = 0 → s' = s)) := by
  constructor
  · intro h0
    subst h0
    unfold create_collateral_auctions transactional
    rw [create_collateral_auctions_raw_zero]
  · intro s' h
    have hshape := create_collateral_auctions_ok_shape cfg C am currency_id amount target r
      splited s s' hA h
    subst hshape
    refine ⟨?_, ?_, ?_⟩
    · intro hmac
      have hle := lots_count_calc_le_mac splited cfg.maxAuctionsCount
        (s.expectedAuctionSize currency_id) amount hmac
      by_cases h0 : amount = 0
      · simp [specSplitLots, h0]
      · have hL1 := lots_count_calc_pos splited cfg.maxAuctionsCount
          (s.expectedAuctionSize currency_id) amount
        simp [specSplitLots, h0]
        omega
    · intro hpos
      have hL1 := lots_count_calc_pos splited cfg.maxAuctionsCount
        (s.expectedAuctionSize currency_id) amount
      simp [specSplitLots, show amount ≠ 0 by omega]
    · intro h0
      simp [specSplitLots, h0]

/-- C5 witness: the three-lot scenario respects the `MaxAuctionsCount
= 10` bound. -/
theorem c5_lot_bound_witness :
    createA.1.auctionLots.length ≤ sLot.auctionLots.length + cfgA.maxAuctionsCount := by
  have hr : createA.2 = none := by decide
  have h : create_collateral_auctions cfgA specLedger amOk 2 250 250 9 true sLot =
      (createA.1, none) := by
    rw [← hr]
    rfl
  exact (((c5_lot_bound_amended cfgA specLedger amOk 2 250 250 9 true sLot
    (by decide)).2 createA.1 h).1 (by decide))

end CdpTreasury
